import Mathlib

/-!
Verification of the CHIP-8 interpreter core (`src/chip8.rs`).

The machine state `Chip8` mirrors the Rust struct field for field.  Machine
integers are modelled as `Nat` with explicit wrap-around (`% 256` for `u8`
results that can overflow, `% 65536` for `u16` results that can overflow);
Rust operations whose result provably fits the type (e.g. `pc += 2` behind the
fetch bounds check, or `registers[x] as u16 * 0x05` with a `u8` operand) are
translated as plain `Nat` arithmetic.  Bit-mask nibble extractions such as
`(opcode & 0x0F00) >> 8` are translated to the identical arithmetic form
`opcode / 256 % 16`; `opcode & 0x0FFF` becomes `opcode % 4096`; the
`match opcode & 0xF00F` / `match opcode & 0xF0FF` dispatches become chains of
equality tests on `opcode % 16` resp. `opcode % 256` (equivalent because every
handler is invoked with a fixed top nibble).  Rust `panic!`s (unknown opcode,
fetch out of bounds, stack underflow, slice/array index out of bounds) become
the `Err` error type; handlers return `Except Err Chip8`.  `load_rom` mutates
`self` before it can fail, so it is modelled as returning the machine state
together with an optional error.
-/

/-- Pointwise update of a function modelling a fixed-size array. -/
def upd {α : Type} (f : Nat → α) (i : Nat) (v : α) : Nat → α :=
  fun j => if j = i then v else f j

/-- Pointwise update of the two-dimensional display array. -/
def updD (f : Nat → Nat → Nat) (dy dx v : Nat) : Nat → Nat → Nat :=
  fun j i => if j = dy ∧ i = dx then v else f j i

/-- The fatal conditions of the interpreter: the four `panic!` sites of
`chip8.rs` that have a documented meaning plus the implicit Rust
index/slice bounds aborts. -/
inductive Err where
  | unknownOpcode (op : Nat)
  | stackUnderflow
  | fetchOutOfBounds
  | capacityError
  | indexOutOfBounds
deriving DecidableEq

/-- The `Chip8` struct of `chip8.rs`.  `memory` has 4096 `u8` cells,
`registers` 16 `u8` cells, `display` is the 32×64 byte grid (row first, as in
`display[disp_y][disp_x]`), `keys` the 16 key flags.  The top of `stack` is
the head of the list. -/
structure Chip8 where
  memory : Nat → Nat
  registers : Nat → Nat
  i_register : Nat
  pc : Nat
  delay_timer : Nat
  sound_timer : Nat
  stack : List Nat
  display : Nat → Nat → Nat
  keys : Nat → Bool
  waiting_key_opcode : Nat

/-- `Chip8::default()`: everything zeroed, `pc = 0x200`. -/
def initChip8 : Chip8 where
  memory := fun _ => 0
  registers := fun _ => 0
  i_register := 0
  pc := 0x200
  delay_timer := 0
  sound_timer := 0
  stack := []
  display := fun _ _ => 0
  keys := fun _ => false
  waiting_key_opcode := 0

/-- `update_timers`: decrement each timer, floored at 0. -/
def update_timers (s : Chip8) : Chip8 :=
  { s with
    delay_timer := if 0 < s.delay_timer then s.delay_timer - 1 else s.delay_timer
    sound_timer := if 0 < s.sound_timer then s.sound_timer - 1 else s.sound_timer }

/-- `reset`: clear every field, `pc = 0x200`. -/
def reset (s : Chip8) : Chip8 :=
  { s with
    memory := fun _ => 0
    registers := fun _ => 0
    i_register := 0
    pc := 0x200
    stack := []
    display := fun _ _ => 0
    keys := fun _ => false
    delay_timer := 0
    sound_timer := 0
    waiting_key_opcode := 0 }

/-- `restart`: like `reset` but `memory` is kept. -/
def restart (s : Chip8) : Chip8 :=
  { s with
    registers := fun _ => 0
    i_register := 0
    pc := 0x200
    stack := []
    display := fun _ _ => 0
    keys := fun _ => false
    delay_timer := 0
    sound_timer := 0
    waiting_key_opcode := 0 }

/-- Copy a byte list into memory starting at `start` (the `for` loop of
`load_rom`). -/
def writeBytes (mem : Nat → Nat) (start : Nat) : List Nat → (Nat → Nat)
  | [] => mem
  | b :: rest => writeBytes (upd mem start b) (start + 1) rest

/-- `load_rom`: reset first, then check capacity, then copy.  The Rust
function mutates `self` via `self.reset()` before the capacity check can
`panic!`, so the state component of the result is the reset machine even in
the error case. -/
def load_rom (s : Chip8) (rom : List Nat) (start : Nat) : Chip8 × Option Err :=
  let s1 := reset s
  if 4096 < start + rom.length then (s1, some Err.capacityError)
  else ({ s1 with memory := writeBytes s1.memory start rom }, none)

/-- `load_rom` at the program load offset `0x200`, the loader contract of the
spec (`load_from_file` reads the bytes and calls `load_rom(&buffer, 0x200)`). -/
def load (s : Chip8) (image : List Nat) : Chip8 × Option Err :=
  load_rom s image 0x200

/-- `get_opcode`: fetch-with-advance, except that a pending wait-for-key
opcode is returned without advancing `pc`. -/
def get_opcode (s : Chip8) : Except Err (Nat × Chip8) :=
  if 4096 ≤ s.pc + 1 then .error .fetchOutOfBounds
  else if 0 < s.waiting_key_opcode then .ok (s.waiting_key_opcode, s)
  else
    .ok (s.memory s.pc <<< 8 ||| s.memory (s.pc + 1), { s with pc := s.pc + 2 })

/-- `handle_0xxx`: clear screen / return from subroutine / unknown. -/
def handle_0xxx (s : Chip8) (op : Nat) : Except Err Chip8 :=
  if op = 0x00E0 then .ok { s with display := fun _ _ => 0 }
  else if op = 0x00EE then
    match s.stack with
    | [] => .error .stackUnderflow
    | a :: rest => .ok { s with pc := a, stack := rest }
  else .error (.unknownOpcode op)

/-- `handle_1xxx`: jump. -/
def handle_1xxx (s : Chip8) (op : Nat) : Except Err Chip8 :=
  .ok { s with pc := op % 4096 }

/-- `handle_2xxx`: call subroutine (push the post-fetch `pc`, then jump). -/
def handle_2xxx (s : Chip8) (op : Nat) : Except Err Chip8 :=
  .ok { s with stack := s.pc :: s.stack, pc := op % 4096 }

/-- `handle_3xxx`: skip if `registers[x] == nn`. -/
def handle_3xxx (s : Chip8) (op : Nat) : Except Err Chip8 :=
  .ok (if s.registers (op / 256 % 16) = op % 256 then { s with pc := s.pc + 2 } else s)

/-- `handle_4xxx`: skip if `registers[x] != nn`. -/
def handle_4xxx (s : Chip8) (op : Nat) : Except Err Chip8 :=
  .ok (if s.registers (op / 256 % 16) ≠ op % 256 then { s with pc := s.pc + 2 } else s)

/-- `handle_5xxx`: skip if `registers[x] == registers[y]`.  Note the Rust
code never looks at the low nibble of the opcode. -/
def handle_5xxx (s : Chip8) (op : Nat) : Except Err Chip8 :=
  .ok (if s.registers (op / 256 % 16) = s.registers (op / 16 % 16)
       then { s with pc := s.pc + 2 } else s)

/-- `handle_6xxx`: load immediate. -/
def handle_6xxx (s : Chip8) (op : Nat) : Except Err Chip8 :=
  .ok { s with registers := upd s.registers (op / 256 % 16) (op % 256) }

/-- `handle_7xxx`: add immediate with `u8` wrap-around, no flag. -/
def handle_7xxx (s : Chip8) (op : Nat) : Except Err Chip8 :=
  .ok { s with registers := upd s.registers (op / 256 % 16)
                 ((s.registers (op / 256 % 16) + op % 256) % 256) }

/-- `handle_8xxx`: the ALU family.  `vx`, `vy` are read before any write, the
two writes of each arm are performed in the source order (result before flag
for `0x8__4`; flag before result for `0x8__5`, `0x8__6`, `0x8__7`,
`0x8__E`). -/
def handle_8xxx (s : Chip8) (op : Nat) : Except Err Chip8 :=
  let x := op / 256 % 16
  let y := op / 16 % 16
  let vx := s.registers x
  let vy := s.registers y
  if op % 16 = 0 then .ok { s with registers := upd s.registers x vy }
  else if op % 16 = 1 then .ok { s with registers := upd s.registers x (Nat.lor vx vy) }
  else if op % 16 = 2 then .ok { s with registers := upd s.registers x (Nat.land vx vy) }
  else if op % 16 = 3 then .ok { s with registers := upd s.registers x (Nat.xor vx vy) }
  else if op % 16 = 4 then
    .ok { s with registers := upd (upd s.registers x ((vx + vy) % 256)) 15
                   (if 256 ≤ vx + vy then 1 else 0) }
  else if op % 16 = 5 then
    .ok { s with registers := upd (upd s.registers 15 (if vy < vx then 1 else 0)) x
                   ((vx + 256 - vy) % 256) }
  else if op % 16 = 6 then
    .ok { s with registers := upd (upd s.registers 15 (vx % 2)) x (vx / 2) }
  else if op % 16 = 7 then
    .ok { s with registers := upd (upd s.registers 15 (if vy < vx then 0 else 1)) x
                   ((vy + 256 - vx) % 256) }
  else if op % 16 = 14 then
    .ok { s with registers := upd (upd s.registers 15 (vx / 128 % 2)) x (vx * 2 % 256) }
  else .error (.unknownOpcode op)

/-- `handle_9xxx`: skip if `registers[x] != registers[y]`.  Like `handle_5xxx`
the low nibble is never inspected. -/
def handle_9xxx (s : Chip8) (op : Nat) : Except Err Chip8 :=
  .ok (if s.registers (op / 256 % 16) ≠ s.registers (op / 16 % 16)
       then { s with pc := s.pc + 2 } else s)

/-- `handle_Axxx`: set index register. -/
def handle_Axxx (s : Chip8) (op : Nat) : Except Err Chip8 :=
  .ok { s with i_register := op % 4096 }

/-- `handle_Bxxx`: jump with offset (`u16` sum of a `u8` and a 12-bit value,
cannot overflow). -/
def handle_Bxxx (s : Chip8) (op : Nat) : Except Err Chip8 :=
  .ok { s with pc := s.registers 0 + op % 4096 }

/-- `handle_Cxxx`: random byte AND mask; the random byte drawn by
`rand::random::<u8>()` is the external input `rnd % 256`. -/
def handle_Cxxx (s : Chip8) (op rnd : Nat) : Except Err Chip8 :=
  .ok { s with registers := upd s.registers (op / 256 % 16) (Nat.land (rnd % 256) (op % 256)) }

/-- Sprite bit of row `row`, column `col`:
`(sprite_data[row] >> (7 - col)) & 1` with `sprite_data[row] = memory[i_register + row]`. -/
def spriteBit (s : Chip8) (row col : Nat) : Nat :=
  s.memory (s.i_register + row) / 2 ^ (7 - col) % 2

/-- One iteration of the inner draw loop: XOR one sprite bit onto the display
and record a collision in `registers[0xF]`. -/
def drawPixel (s : Chip8) (x y row col : Nat) : Chip8 :=
  let pixel := spriteBit s row col
  let dx := (x + col) % 64
  let dy := (y + row) % 32
  let cur := s.display dy dx
  let s1 := if 0 < cur ∧ 0 < pixel then { s with registers := upd s.registers 15 1 } else s
  { s1 with display := updD s1.display dy dx (Nat.xor cur pixel) }

/-- Columns `0, …, k-1` of row `row`, processed left to right. -/
def drawCols (s : Chip8) (x y row : Nat) : Nat → Chip8
  | 0 => s
  | k + 1 => drawPixel (drawCols s x y row k) x y row k

/-- Rows `0, …, m-1`, each over its 8 columns, processed top to bottom. -/
def drawRows (s : Chip8) (x y : Nat) : Nat → Chip8
  | 0 => s
  | m + 1 => drawCols (drawRows s x y m) x y m 8

/-- `handle_Dxxx`: draw an 8×`n` sprite.  The Rust slice
`memory[i..i + n]` aborts when `i + n > 4096`; otherwise `registers[0xF]` is
cleared and the double loop runs. -/
def handle_Dxxx (s : Chip8) (op : Nat) : Except Err Chip8 :=
  let vx := s.registers (op / 256 % 16)
  let vy := s.registers (op / 16 % 16)
  let n := op % 16
  let x := vx % 64
  let y := vy % 32
  if s.i_register + n ≤ 4096 then
    .ok (drawRows { s with registers := upd s.registers 15 0 } x y n)
  else .error .indexOutOfBounds

/-- `handle_Exxx`: skip on key state.  `self.keys[vx]` is an unchecked index
into the 16-entry array: `vx ≥ 16` aborts with an index-out-of-bounds
`panic`, modelled as `Err.indexOutOfBounds`. -/
def handle_Exxx (s : Chip8) (op : Nat) : Except Err Chip8 :=
  let vx := s.registers (op / 256 % 16)
  if op % 256 = 0x9E then
    if 16 ≤ vx then .error .indexOutOfBounds
    else .ok (if s.keys vx then { s with pc := s.pc + 2 } else s)
  else if op % 256 = 0xA1 then
    if 16 ≤ vx then .error .indexOutOfBounds
    else .ok (if s.keys vx then s else { s with pc := s.pc + 2 })
  else .error (.unknownOpcode op)

/-- The scan of `self.keys.iter().enumerate()` with `break` on the first
pressed key: the lowest pressed index at or above `i`, if any. -/
def firstKeyFrom (keys : Nat → Bool) (i : Nat) : Option Nat :=
  if i < 16 then
    if keys i then some i else firstKeyFrom keys (i + 1)
  else none
termination_by 16 - i

/-- Store `registers[0]…registers[k-1]` to `memory[base]…memory[base+k-1]`. -/
def storeRegsMem (mem : Nat → Nat) (regs : Nat → Nat) (base : Nat) : Nat → (Nat → Nat)
  | 0 => mem
  | k + 1 => upd (storeRegsMem mem regs base k) (base + k) (regs k)

/-- Load `registers[0]…registers[k-1]` from `memory[base]…memory[base+k-1]`. -/
def loadRegsRegs (regs : Nat → Nat) (mem : Nat → Nat) (base : Nat) : Nat → (Nat → Nat)
  | 0 => regs
  | k + 1 => upd (loadRegsRegs regs mem base k) k (mem (base + k))

/-- `handle_Fxxx`.  `0xF_0A` stores the opcode in `waiting_key_opcode` and
then clears it again if the key scan finds a pressed key (net effect as in
the source).  `0xF_29` multiplies the full register value by 5 — the `u16`
product of a `u8` by 5 cannot overflow.  `0xF_33`, `0xF_55`, `0xF_65` index
`memory` at `i_register + …` without a bounds check in the source; an
out-of-range index aborts. -/
def handle_Fxxx (s : Chip8) (op : Nat) : Except Err Chip8 :=
  let x := op / 256 % 16
  let vx := s.registers x
  if op % 256 = 0x07 then .ok { s with registers := upd s.registers x s.delay_timer }
  else if op % 256 = 0x0A then
    .ok (match firstKeyFrom s.keys 0 with
         | none => { s with waiting_key_opcode := op }
         | some i => { s with waiting_key_opcode := 0, registers := upd s.registers x i })
  else if op % 256 = 0x15 then .ok { s with delay_timer := vx }
  else if op % 256 = 0x18 then .ok { s with sound_timer := vx }
  else if op % 256 = 0x1E then .ok { s with i_register := (s.i_register + vx) % 65536 }
  else if op % 256 = 0x29 then .ok { s with i_register := vx * 5 }
  else if op % 256 = 0x33 then
    if s.i_register + 2 < 4096 then
      let mem1 := upd s.memory s.i_register (vx / 100)
      let mem2 := upd mem1 (s.i_register + 1) (vx / 10 % 10)
      .ok { s with memory := upd mem2 (s.i_register + 2) (vx % 10) }
    else .error .indexOutOfBounds
  else if op % 256 = 0x55 then
    if s.i_register + x < 4096 then
      .ok { s with memory := storeRegsMem s.memory s.registers s.i_register (x + 1) }
    else .error .indexOutOfBounds
  else if op % 256 = 0x65 then
    if s.i_register + x < 4096 then
      .ok { s with registers := loadRegsRegs s.registers s.memory s.i_register (x + 1) }
    else .error .indexOutOfBounds
  else .error (.unknownOpcode op)

/-- `execute_opcode`: fetch, then dispatch on the top nibble
(`opcode & 0xF000`, i.e. `op / 4096 % 16`).  The final arm mirrors the
unreachable `_ => panic!` arm of the source `match`. -/
def execute_opcode (rnd : Nat) (s : Chip8) : Except Err Chip8 :=
  match get_opcode s with
  | .error e => .error e
  | .ok (op, s1) =>
    let top := op / 4096 % 16
    if top = 0 then handle_0xxx s1 op
    else if top = 1 then handle_1xxx s1 op
    else if top = 2 then handle_2xxx s1 op
    else if top = 3 then handle_3xxx s1 op
    else if top = 4 then handle_4xxx s1 op
    else if top = 5 then handle_5xxx s1 op
    else if top = 6 then handle_6xxx s1 op
    else if top = 7 then handle_7xxx s1 op
    else if top = 8 then handle_8xxx s1 op
    else if top = 9 then handle_9xxx s1 op
    else if top = 10 then handle_Axxx s1 op
    else if top = 11 then handle_Bxxx s1 op
    else if top = 12 then handle_Cxxx s1 op rnd
    else if top = 13 then handle_Dxxx s1 op
    else if top = 14 then handle_Exxx s1 op
    else if top = 15 then handle_Fxxx s1 op
    else .error (.unknownOpcode op)

/-- Is the result a non-error? -/
def isOkE (e : Except Err Chip8) : Bool :=
  match e with
  | .ok _ => true
  | .error _ => false

/-- Register `j` of the state of a successful result. -/
def regAfter (e : Except Err Chip8) (j : Nat) : Option Nat :=
  match e with
  | .ok t => some (t.registers j)
  | .error _ => none

/-- The flag register `0xF` of the state of a successful result. -/
def flagAfter (e : Except Err Chip8) : Option Nat :=
  regAfter e 15

/-- The program counter of the state of a successful result. -/
def pcAfter (e : Except Err Chip8) : Option Nat :=
  match e with
  | .ok t => some t.pc
  | .error _ => none

/-- A display cell of the state of a successful result. -/
def dispAfter (e : Except Err Chip8) (dy dx : Nat) : Option Nat :=
  match e with
  | .ok t => some (t.display dy dx)
  | .error _ => none

/-! ### Concrete machine states used as explicit inputs -/

/-- A fresh machine whose loaded program starts with the single instruction
`0x5121` (`5`-family, low nibble `1`). -/
def sC1 : Chip8 :=
  { initChip8 with memory := fun a => if a = 0x200 then 0x51 else if a = 0x201 then 0x21 else 0 }

/-- A machine with `registers[1] = 0x10` (a value whose low nibble is 0). -/
def sC3 : Chip8 :=
  { initChip8 with registers := fun j => if j = 1 then 16 else 0 }

/-- A machine with `registers[0] = 7`, to observe the loss of state on a
failing load. -/
def sC4 : Chip8 :=
  { initChip8 with registers := fun j => if j = 0 then 7 else 0 }

/-- An oversized program image: `3585 + 0x200 = 4097 > 4096` bytes. -/
def romBig : List Nat := List.replicate 3585 0

/-- A machine with `registers[0xF] = 10` and `registers[0] = 5`, for the
subtract-with-borrow instruction `0x8F05` whose destination is the flag. -/
def sC6 : Chip8 :=
  { initChip8 with registers := fun j => if j = 15 then 10 else if j = 0 then 5 else 0 }

/-- A machine with `registers[1] = 0x05` and `registers[2] = 0x0A`, the
subtract-with-borrow example of the spec. -/
def sC6w : Chip8 :=
  { initChip8 with registers := fun j => if j = 1 then 5 else if j = 2 then 10 else 0 }

/-- A machine with `registers[1] = 200`, an out-of-range key index. -/
def sC9 : Chip8 :=
  { initChip8 with registers := fun j => if j = 1 then 200 else 0 }

/-- A machine with `registers[0xF] = 250` and `registers[1] = 10`, for the
ALU instructions whose destination is the flag register. -/
def sC10 : Chip8 :=
  { initChip8 with registers := fun j => if j = 15 then 250 else if j = 1 then 10 else 0 }

/-- A machine stalled on the get-key instruction `0xF20A` with no key
pressed. -/
def sWaitNoKey : Chip8 :=
  { initChip8 with waiting_key_opcode := 0xF20A }

/-- A machine stalled on the get-key instruction `0xF20A` with exactly key 3
pressed. -/
def sWaitKey : Chip8 :=
  { initChip8 with waiting_key_opcode := 0xF20A, keys := fun j => j == 3 }

/-- A machine whose program is `0x2300` (call `0x300`) at `0x200` and
`0x00EE` (return) at `0x300`. -/
def sCall : Chip8 :=
  { initChip8 with memory := fun a => if a = 0x200 then 0x23 else if a = 0x301 then 0xEE else 0 }

/-- A blank machine with an 8x1 sprite `0xFF` at `0x300` and `i = 0x300`;
all registers 0, so `0xD011` draws at the origin. -/
def sD5 : Chip8 :=
  { initChip8 with i_register := 0x300, memory := fun a => if a = 0x300 then 0xFF else 0 }

/-- Like `sD5` but with `registers[0] = 63`, so a draw via `0xD011` starts at
the last column and wraps. -/
def sD7 : Chip8 :=
  { initChip8 with
    registers := fun j => if j = 0 then 63 else 0
    i_register := 0x300
    memory := fun a => if a = 0x300 then 0xFF else 0 }

/-! ### Basic lemmas about the array model -/

theorem upd_self (f : Nat → Nat) (i v : Nat) : upd f i v i = v := by
  simp [upd]

theorem upd_ne (f : Nat → Nat) (i v j : Nat) (h : j ≠ i) : upd f i v j = f j := by
  simp [upd, h]

theorem updD_self (f : Nat → Nat → Nat) (dy dx v : Nat) : updD f dy dx v dy dx = v := by
  simp [updD]

theorem updD_ne (f : Nat → Nat → Nat) (dy dx v j i : Nat) (h : ¬(j = dy ∧ i = dx)) :
    updD f dy dx v j i = f j i := by
  simp [updD, h]

/-- Big-endian composition of two bytes: for `b < 256`,
`a <<< 8 ||| b = a * 256 + b`. -/
theorem shift8_or (a b : Nat) (hb : b < 256) : a <<< 8 ||| b = a * 256 + b := by
  rw [Nat.shiftLeft_eq]
  calc a * 2 ^ 8 ||| b = 2 ^ 8 * a ||| b := by rw [Nat.mul_comm]
    _ = 2 ^ 8 * a + b := (Nat.mul_add_lt_is_or (by norm_num [hb]) a).symm
    _ = a * 256 + b := by ring

/-! ### C1 — decode totality and unknown sub-opcodes -/

/-- C1 counterexample: the claim says executing `0x5121` (family `0x5xxx`,
low nibble `1 ≠ 0`) raises `UnknownOpcodeError`; on the machine `sC1` whose
next instruction is `0x5121` a step instead succeeds and performs the
skip-if-equal (`pc` goes from `0x200` to `0x204`). -/
theorem C1_counterexample :
    isOkE (execute_opcode 0 sC1) = true ∧ pcAfter (execute_opcode 0 sC1) = some 0x204 := by
  decide

/-- C1 amended: within the `0x0xxx`, `0x8xxx`, `0xExxx` and `0xFxxx` families
every bit pattern that matches no documented instruction is the fatal
`UnknownOpcodeError`; the `0x5xxx` and `0x9xxx` families however never
raise it — they ignore the low nibble and execute the register-comparison
skip for every sub-pattern. -/
theorem C1_amended (s : Chip8) (op : Nat) :
    (op ≠ 0x00E0 → op ≠ 0x00EE → handle_0xxx s op = .error (.unknownOpcode op)) ∧
    (7 < op % 16 → op % 16 ≠ 14 → handle_8xxx s op = .error (.unknownOpcode op)) ∧
    (op % 256 ≠ 0x9E → op % 256 ≠ 0xA1 → handle_Exxx s op = .error (.unknownOpcode op)) ∧
    (op % 256 ≠ 0x07 → op % 256 ≠ 0x0A → op % 256 ≠ 0x15 → op % 256 ≠ 0x18 →
     op % 256 ≠ 0x1E → op % 256 ≠ 0x29 → op % 256 ≠ 0x33 → op % 256 ≠ 0x55 →
     op % 256 ≠ 0x65 → handle_Fxxx s op = .error (.unknownOpcode op)) ∧
    isOkE (handle_5xxx s op) = true ∧
    isOkE (handle_9xxx s op) = true := by
  refine ⟨?_, ?_, ?_, ?_, ?_, ?_⟩
  · intro h1 h2
    simp [handle_0xxx, h1, h2]
  · intro h1 h2
    simp [handle_8xxx, show op % 16 ≠ 0 by omega, show op % 16 ≠ 1 by omega,
      show op % 16 ≠ 2 by omega, show op % 16 ≠ 3 by omega, show op % 16 ≠ 4 by omega,
      show op % 16 ≠ 5 by omega, show op % 16 ≠ 6 by omega, show op % 16 ≠ 7 by omega, h2]
  · intro h1 h2
    simp [handle_Exxx, h1, h2]
  · intro h1 h2 h3 h4 h5 h6 h7 h8 h9
    simp [handle_Fxxx, h1, h2, h3, h4, h5, h6, h7, h8, h9]
  · simp [handle_5xxx, isOkE]
  · simp [handle_9xxx, isOkE]

/-- C1 amended, witnessed at concrete opcodes of each family. -/
theorem C1_amended_witness :
    handle_0xxx initChip8 0x0012 = .error (.unknownOpcode 0x0012) ∧
    handle_8xxx initChip8 0x8009 = .error (.unknownOpcode 0x8009) ∧
    handle_Exxx initChip8 0xE000 = .error (.unknownOpcode 0xE000) ∧
    handle_Fxxx initChip8 0xF000 = .error (.unknownOpcode 0xF000) ∧
    isOkE (handle_5xxx initChip8 0x5121) = true ∧
    isOkE (handle_9xxx initChip8 0x9343) = true :=
  ⟨(C1_amended initChip8 0x0012).1 (by decide) (by decide),
   (C1_amended initChip8 0x8009).2.1 (by decide) (by decide),
   (C1_amended initChip8 0xE000).2.2.1 (by decide) (by decide),
   (C1_amended initChip8 0xF000).2.2.2.1 (by decide) (by decide) (by decide) (by decide)
     (by decide) (by decide) (by decide) (by decide) (by decide),
   (C1_amended initChip8 0x5121).2.2.2.2.1,
   (C1_amended initChip8 0x9343).2.2.2.2.2⟩

/-! ### C3 — font-address instruction -/

/-- C3 counterexample: the claim says `0xFX29` sets the index register to
`5 * (registers[x] mod 16)`.  With `registers[1] = 0x10` the code sets
`i_register = 0x10 * 5 = 80`, while `5 * (0x10 mod 16) = 0`. -/
theorem C3_counterexample :
    handle_Fxxx sC3 0xF129 = .ok { sC3 with i_register := 80 } ∧
    (80 : Nat) ≠ 5 * (sC3.registers 1 % 16) := by
  constructor
  · rfl
  · decide

/-- C3 amended: `0xFX29` sets the index register to `5 * registers[x]` using
the full 8-bit register value (no masking to the low nibble), and changes no
other state; this agrees with the claim exactly when `registers[x] < 16`. -/
theorem C3_amended (s : Chip8) (op : Nat) (hsub : op % 256 = 0x29) :
    handle_Fxxx s op = .ok { s with i_register := s.registers (op / 256 % 16) * 5 } := by
  simp [handle_Fxxx, hsub]

/-- C3 amended, witnessed at `0xF129` on `sC3`. -/
theorem C3_amended_witness :
    (0xF129 : Nat) % 256 = 0x29 ∧
    handle_Fxxx sC3 0xF129 = .ok { sC3 with i_register := sC3.registers (0xF129 / 256 % 16) * 5 } :=
  ⟨by decide, C3_amended sC3 0xF129 (by decide)⟩

/-! ### C4 — loader capacity error -/

/-- C4 counterexample: loading an oversized image does fail with
`CapacityError`, but the machine is not left unchanged — `registers[0]` was 7
before the failing load and is 0 afterwards (the loader resets before the
capacity check). -/
theorem romBig_length : romBig.length = 3585 := by
  rw [romBig, List.length_replicate]

theorem C4_counterexample :
    (load sC4 romBig).2 = some Err.capacityError ∧
    (load sC4 romBig).1.registers 0 = 0 ∧
    sC4.registers 0 = 7 := by
  have h : load sC4 romBig = (reset sC4, some Err.capacityError) := by
    rw [load, load_rom]
    simp [romBig_length]
  rw [h]
  exact ⟨rfl, rfl, by decide⟩

/-- C4 amended: for every machine state and every image with
`image.len() + 0x200 > 4096`, the load fails with `CapacityError` and leaves
the machine fully reset (cleared state, `pc = 0x200`) — not unchanged: the
reference clears the state first and only then checks capacity. -/
theorem C4_amended (s : Chip8) (rom : List Nat) (h : 4096 < 0x200 + rom.length) :
    load s rom = (reset s, some Err.capacityError) := by
  simp [load, load_rom, h]

/-- C4 amended, witnessed on the oversized image `romBig`. -/
theorem C4_amended_witness :
    4096 < 0x200 + romBig.length ∧
    load initChip8 romBig = (reset initChip8, some Err.capacityError) :=
  ⟨by rw [romBig_length]; norm_num,
   C4_amended initChip8 romBig (by rw [romBig_length]; norm_num)⟩

/-! ### C6 — subtract-with-borrow -/

/-- C6 counterexample: with destination `x = 0xF` (opcode `0x8F05`,
`vx = registers[0xF] = 10 > vy = registers[0] = 5`) the claim demands
`registers[0xF] = 1`, but the code leaves the wrapped difference 5 there
(the flag write happens before the result write). -/
theorem C6_counterexample :
    sC6.registers 0 < sC6.registers 15 ∧
    regAfter (handle_8xxx sC6 0x8F05) 15 = some 5 ∧
    regAfter (handle_8xxx sC6 0x8F05) 15 ≠ some 1 := by
  decide

/-- C6 amended: for every `0x8XY5` with destination `x ≠ 0xF`, the flag
register is set to 1 exactly when `vx > vy` (0 on equality), and
`registers[x]` receives the difference wrapped modulo 256; when `x = 0xF`
the wrapped difference overwrites the flag (see the counterexample). -/
theorem C6_amended (s : Chip8) (op : Nat) (hsub : op % 16 = 5) (hx : op / 256 % 16 ≠ 15) :
    handle_8xxx s op = .ok { s with registers := upd (upd s.registers 15 (if s.registers (op / 16 % 16) < s.registers (op / 256 % 16) then 1 else 0)) (op / 256 % 16) ((s.registers (op / 256 % 16) + 256 - s.registers (op / 16 % 16)) % 256) } ∧
    regAfter (handle_8xxx s op) 15 =
      some (if s.registers (op / 16 % 16) < s.registers (op / 256 % 16) then 1 else 0) ∧
    regAfter (handle_8xxx s op) (op / 256 % 16) =
      some ((s.registers (op / 256 % 16) + 256 - s.registers (op / 16 % 16)) % 256) := by
  have h1 : handle_8xxx s op = .ok { s with registers := upd (upd s.registers 15 (if s.registers (op / 16 % 16) < s.registers (op / 256 % 16) then 1 else 0)) (op / 256 % 16) ((s.registers (op / 256 % 16) + 256 - s.registers (op / 16 % 16)) % 256) } := by
    simp [handle_8xxx, hsub]
  have hx' : (15 : Nat) ≠ op / 256 % 16 := fun h => hx h.symm
  refine ⟨h1, ?_, ?_⟩
  · rw [h1]
    simp [regAfter, upd, hx']
  · rw [h1]
    simp [regAfter, upd]

/-- C6 amended, witnessed at the spec's example `vx = 0x05, vy = 0x0A`
(opcode `0x8125` on `sC6w`): result `0xFB`, flag 0. -/
theorem C6_amended_witness :
    regAfter (handle_8xxx sC6w 0x8125) 15 = some 0 ∧
    regAfter (handle_8xxx sC6w 0x8125) 1 = some 0xFB :=
  (C6_amended sC6w 0x8125 (by decide) (by decide)).2

/-! ### C9 — key-skip instructions index the keypad with the full register -/

/-- C9: `0xEX9E`/`0xEXA1` index the 16-entry keypad with the full 8-bit value
of `registers[x]`: the access succeeds when `registers[x] < 16` and aborts
with an index-out-of-bounds error (not any documented `Err`) otherwise. -/
theorem C9_key_index (s : Chip8) (op : Nat) (hsub : op % 256 = 0x9E ∨ op % 256 = 0xA1) :
    (s.registers (op / 256 % 16) < 16 → isOkE (handle_Exxx s op) = true) ∧
    (16 ≤ s.registers (op / 256 % 16) → handle_Exxx s op = .error .indexOutOfBounds) := by
  rcases hsub with h | h
  · constructor
    · intro hlt
      simp [handle_Exxx, h, Nat.not_le.mpr hlt, isOkE]
    · intro hge
      simp [handle_Exxx, h, hge]
  · constructor
    · intro hlt
      simp [handle_Exxx, h, Nat.not_le.mpr hlt, isOkE]
    · intro hge
      simp [handle_Exxx, h, hge]

/-- C9 witnessed: `registers[0] = 0 < 16` succeeds; `registers[1] = 200`
aborts out of bounds. -/
theorem C9_key_index_witness :
    isOkE (handle_Exxx initChip8 0xE09E) = true ∧
    handle_Exxx sC9 0xE19E = .error .indexOutOfBounds :=
  ⟨(C9_key_index initChip8 0xE09E (Or.inl (by decide))).1 (by decide),
   (C9_key_index sC9 0xE19E (Or.inl (by decide))).2 (by decide)⟩

/-! ### C10 — ALU flag/destination overlap at x = 0xF -/

/-- C10: both `0x8XY4` and `0x8XY5` read `vx`, `vy` before writing; with
destination `x = 0xF`, add-with-carry leaves the carry flag in
`registers[0xF]` (flag written last) while subtract-with-borrow leaves the
wrapped difference there (flag written first). -/
theorem C10_flag_dest_overlap (s : Chip8) (op : Nat) (hx : op / 256 % 16 = 15) :
    (op % 16 = 4 → flagAfter (handle_8xxx s op) =
        some (if 256 ≤ s.registers 15 + s.registers (op / 16 % 16) then 1 else 0)) ∧
    (op % 16 = 5 → flagAfter (handle_8xxx s op) =
        some ((s.registers 15 + 256 - s.registers (op / 16 % 16)) % 256)) := by
  constructor
  · intro h
    simp [handle_8xxx, flagAfter, regAfter, h, hx, upd]
  · intro h
    simp [handle_8xxx, flagAfter, regAfter, h, hx, upd]

/-- C10 witnessed at `0x8F14` / `0x8F15` on `sC10`
(`registers[0xF] = 250`, `registers[1] = 10`). -/
theorem C10_flag_dest_overlap_witness :
    flagAfter (handle_8xxx sC10 0x8F14) = some 1 ∧
    flagAfter (handle_8xxx sC10 0x8F15) = some 240 :=
  ⟨(C10_flag_dest_overlap sC10 0x8F14 (by decide)).1 (by decide),
   (C10_flag_dest_overlap sC10 0x8F15 (by decide)).2 (by decide)⟩

/-! ### C2 — the wait-for-key stall -/

/-- The key scan finds nothing when no key at or above `j` is pressed. -/
theorem firstKeyFrom_none (keys : Nat → Bool) :
    ∀ d j, 16 ≤ j + d → (∀ k, j ≤ k → k < 16 → keys k = false) →
      firstKeyFrom keys j = none := by
  intro d
  induction d with
  | zero =>
    intro j h _
    rw [firstKeyFrom]
    rw [if_neg (by omega : ¬ j < 16)]
  | succ d ih =>
    intro j h hall
    rw [firstKeyFrom]
    by_cases hj : j < 16
    · rw [if_pos hj, hall j le_rfl hj]
      simp only [Bool.false_eq_true, if_false]
      exact ih (j + 1) (by omega) (fun k hk1 hk2 => hall k (by omega) hk2)
    · rw [if_neg hj]

/-- The key scan returns the lowest pressed index. -/
theorem firstKeyFrom_least (keys : Nat → Bool) :
    ∀ d j i, i ≤ j + d → j ≤ i → i < 16 → keys i = true →
      (∀ k, j ≤ k → k < i → keys k = false) → firstKeyFrom keys j = some i := by
  intro d
  induction d with
  | zero =>
    intro j i hd hji hi hk _
    have hj : j = i := by omega
    subst hj
    rw [firstKeyFrom, if_pos (by omega : j < 16), hk]
    simp
  | succ d ih =>
    intro j i hd hji hi hk hmin
    by_cases hji' : j = i
    · subst hji'
      rw [firstKeyFrom, if_pos (by omega : j < 16), hk]
      simp
    · have hlt : j < i := by omega
      rw [firstKeyFrom, if_pos (by omega : j < 16), hmin j le_rfl hlt]
      simp only [Bool.false_eq_true, if_false]
      exact ih (j + 1) i (by omega) (by omega) hi hk (fun k h1 h2 => hmin k (by omega) h2)

/-- C2: while `waiting_key_opcode` holds a get-key instruction, a step with no
key pressed re-executes it without fetching and returns the state unchanged
(hence every subsequent step does the same); a step with keys pressed stores
the lowest pressed index in the destination register and clears
`waiting_key_opcode`; and any state with `waiting_key_opcode = 0` fetches
normally, advancing `pc` by 2. -/
theorem C2_keywait (s : Chip8) (op i : Nat)
    (hw : s.waiting_key_opcode = op) (htop : op / 4096 % 16 = 15)
    (hsub : op % 256 = 0x0A) (hpc : s.pc + 1 < 4096) :
    ((∀ j, j < 16 → s.keys j = false) → ∀ rnd, execute_opcode rnd s = .ok s) ∧
    (∀ rnd, i < 16 → s.keys i = true → (∀ j, j < i → s.keys j = false) →
      execute_opcode rnd s = .ok { s with waiting_key_opcode := 0, registers := upd s.registers (op / 256 % 16) i }) ∧
    (∀ t : Chip8, t.waiting_key_opcode = 0 → t.pc + 1 < 4096 →
      get_opcode t = .ok (t.memory t.pc <<< 8 ||| t.memory (t.pc + 1), { t with pc := t.pc + 2 })) := by
  have hop : 0 < op := by omega
  have hfetch : get_opcode s = .ok (op, s) := by
    rw [get_opcode, if_neg (by omega : ¬ 4096 ≤ s.pc + 1), hw, if_pos hop]
  have hexec : ∀ rnd, execute_opcode rnd s = handle_Fxxx s op := by
    intro rnd
    simp [execute_opcode, hfetch, htop]
  refine ⟨?_, ?_, ?_⟩
  · intro hnone rnd
    have hkey : firstKeyFrom s.keys 0 = none :=
      firstKeyFrom_none s.keys 16 0 (by omega) (fun k _ h2 => hnone k h2)
    rw [hexec rnd]
    subst hw
    simp [handle_Fxxx, hsub, hkey]
  · intro rnd hi hki hmin
    have hkey : firstKeyFrom s.keys 0 = some i :=
      firstKeyFrom_least s.keys 16 0 i (by omega) (by omega) hi hki (fun k _ h2 => hmin k h2)
    rw [hexec rnd]
    simp [handle_Fxxx, hsub, hkey]
  · intro t h0 hp
    rw [get_opcode, if_neg (by omega : ¬ 4096 ≤ t.pc + 1), h0]
    simp

/-- C2 witnessed: on `sWaitNoKey` a step is the identity; on `sWaitKey` a step
stores key 3 into `registers[2]` and clears the pending opcode. -/
theorem C2_keywait_witness :
    execute_opcode 0 sWaitNoKey = .ok sWaitNoKey ∧
    execute_opcode 0 sWaitKey = .ok { sWaitKey with waiting_key_opcode := 0, registers := upd sWaitKey.registers 2 3 } :=
  ⟨(C2_keywait sWaitNoKey 0xF20A 3 rfl (by decide) (by decide) (by decide)).1
      (fun j _ => rfl) 0,
   (C2_keywait sWaitKey 0xF20A 3 rfl (by decide) (by decide) (by decide)).2.1 0
      (by decide) (by decide) (by decide)⟩

/-! ### C8 — call followed by return -/

/-- C8: executing a subroutine call `0x2NNN` and then the return `0x00EE`
placed at `NNN` restores `pc` to the address following the call (the value
it held right after the call's fetch-advance) and restores the stack — in
fact the whole state — to its pre-call contents. -/
theorem C8_call_return (s : Chip8) (nnn rnd1 rnd2 : Nat)
    (h0 : s.waiting_key_opcode = 0) (hpc : s.pc + 1 < 4096)
    (hret : nnn + 1 < 4096)
    (hhi : s.memory s.pc = 0x20 + nnn / 256) (hlo : s.memory (s.pc + 1) = nnn % 256)
    (hsub0 : s.memory nnn = 0x00) (hsub1 : s.memory (nnn + 1) = 0xEE) :
    Except.bind (execute_opcode rnd1 s) (execute_opcode rnd2) = .ok { s with pc := s.pc + 2 } := by
  have hx : s.memory s.pc <<< 8 ||| s.memory (s.pc + 1) = 0x2000 + nnn := by
    rw [hhi, hlo, shift8_or _ _ (by omega)]
    omega
  have hfetch1 : get_opcode s = .ok (0x2000 + nnn, { s with pc := s.pc + 2 }) := by
    rw [get_opcode, if_neg (by omega : ¬ 4096 ≤ s.pc + 1), h0]
    simp [hx]
  have hstep1 : execute_opcode rnd1 s = .ok { s with pc := nnn, stack := (s.pc + 2) :: s.stack } := by
    have htop : (0x2000 + nnn) / 4096 % 16 = 2 := by omega
    have hmod : (0x2000 + nnn) % 4096 = nnn := by omega
    simp [execute_opcode, hfetch1, htop, handle_2xxx, hmod]
  have hfetch2 : get_opcode { s with pc := nnn, stack := (s.pc + 2) :: s.stack } =
      .ok (0xEE, { s with pc := nnn + 2, stack := (s.pc + 2) :: s.stack }) := by
    rw [get_opcode]
    simp only
    rw [if_neg (by omega : ¬ 4096 ≤ nnn + 1), h0]
    rw [hsub0, hsub1, shift8_or 0 0xEE (by norm_num)]
    norm_num
  have hstep2 : execute_opcode rnd2 { s with pc := nnn, stack := (s.pc + 2) :: s.stack } =
      .ok { s with pc := s.pc + 2 } := by
    simp [execute_opcode, hfetch2, handle_0xxx]
  rw [hstep1]
  simpa [Except.bind] using hstep2

/-- C8 witnessed on `sCall` (`pc = 0x200`, call of `0x300`, return at
`0x300`). -/
theorem C8_call_return_witness :
    Except.bind (execute_opcode 0 sCall) (execute_opcode 0) = .ok { sCall with pc := 0x202 } :=
  C8_call_return sCall 0x300 0 0 rfl (by decide) (by decide) (by decide) (by decide)
    (by decide) (by decide)

/-! ### The sprite-draw loop, pixel by pixel -/

theorem drawPixel_memory (s : Chip8) (x y r c : Nat) :
    (drawPixel s x y r c).memory = s.memory := by
  simp only [drawPixel]
  split <;> rfl

theorem drawPixel_i_register (s : Chip8) (x y r c : Nat) :
    (drawPixel s x y r c).i_register = s.i_register := by
  simp only [drawPixel]
  split <;> rfl

theorem drawPixel_spriteBit (s : Chip8) (x y r c a b : Nat) :
    spriteBit (drawPixel s x y r c) a b = spriteBit s a b := by
  simp [spriteBit, drawPixel_memory, drawPixel_i_register]

theorem drawPixel_registers_ne (s : Chip8) (x y r c j : Nat) (hj : j ≠ 15) :
    (drawPixel s x y r c).registers j = s.registers j := by
  simp only [drawPixel]
  split
  · show upd s.registers 15 1 j = s.registers j
    exact upd_ne _ _ _ _ hj
  · rfl

theorem drawPixel_flag (s : Chip8) (x y r c : Nat) :
    (drawPixel s x y r c).registers 15 =
      if 0 < s.display ((y + r) % 32) ((x + c) % 64) ∧ 0 < spriteBit s r c
      then 1 else s.registers 15 := by
  simp only [drawPixel]
  split
  · show upd s.registers 15 1 15 = 1
    exact upd_self _ _ _
  · rfl

theorem drawPixel_display (s : Chip8) (x y r c dy dx : Nat) :
    (drawPixel s x y r c).display dy dx =
      if dy = (y + r) % 32 ∧ dx = (x + c) % 64
      then Nat.xor (s.display ((y + r) % 32) ((x + c) % 64)) (spriteBit s r c)
      else s.display dy dx := by
  by_cases h : dy = (y + r) % 32 ∧ dx = (x + c) % 64
  · rw [if_pos h]
    obtain ⟨h1, h2⟩ := h
    subst h1; subst h2
    simp only [drawPixel]
    split <;> exact updD_self _ _ _ _
  · rw [if_neg h]
    simp only [drawPixel]
    split <;> exact updD_ne _ _ _ _ _ _ h

/-- Two distinct columns of one sprite row land on distinct display columns. -/
theorem colcell_ne (x c c' : Nat) (hc : c < 64) (hc' : c' < 64) (hne : c ≠ c') :
    (x + c) % 64 ≠ (x + c') % 64 := by
  omega

/-- Two distinct rows of one sprite land on distinct display rows. -/
theorem rowcell_ne (y r r' : Nat) (hr : r < 32) (hr' : r' < 32) (hne : r ≠ r') :
    (y + r) % 32 ≠ (y + r') % 32 := by
  omega

theorem drawCols_memory (s : Chip8) (x y r : Nat) :
    ∀ k, (drawCols s x y r k).memory = s.memory := by
  intro k
  induction k with
  | zero => rfl
  | succ k ih => rw [drawCols, drawPixel_memory, ih]

theorem drawCols_i_register (s : Chip8) (x y r : Nat) :
    ∀ k, (drawCols s x y r k).i_register = s.i_register := by
  intro k
  induction k with
  | zero => rfl
  | succ k ih => rw [drawCols, drawPixel_i_register, ih]

theorem drawCols_spriteBit (s : Chip8) (x y r k a b : Nat) :
    spriteBit (drawCols s x y r k) a b = spriteBit s a b := by
  simp [spriteBit, drawCols_memory, drawCols_i_register]

theorem drawCols_registers_ne (s : Chip8) (x y r j : Nat) (hj : j ≠ 15) :
    ∀ k, (drawCols s x y r k).registers j = s.registers j := by
  intro k
  induction k with
  | zero => rfl
  | succ k ih => rw [drawCols, drawPixel_registers_ne _ _ _ _ _ _ hj, ih]

theorem drawCols_display_untouched (s : Chip8) (x y r dy dx : Nat) :
    ∀ k, (∀ c, c < k → ¬(dy = (y + r) % 32 ∧ dx = (x + c) % 64)) →
      (drawCols s x y r k).display dy dx = s.display dy dx := by
  intro k
  induction k with
  | zero => intro _; rfl
  | succ k ih =>
    intro h
    rw [drawCols, drawPixel_display, if_neg (h k (by omega))]
    exact ih (fun c hc => h c (by omega))

theorem drawCols_display_touched (s : Chip8) (x y r : Nat) :
    ∀ k, k ≤ 64 → ∀ c, c < k →
      (drawCols s x y r k).display ((y + r) % 32) ((x + c) % 64) =
        Nat.xor (s.display ((y + r) % 32) ((x + c) % 64)) (spriteBit s r c) := by
  intro k
  induction k with
  | zero => intro _ c hc; omega
  | succ k ih =>
    intro hk c hc
    rw [drawCols, drawPixel_display]
    by_cases hck : c = k
    · subst hck
      rw [if_pos ⟨rfl, rfl⟩, drawCols_spriteBit]
      rw [drawCols_display_untouched s x y r ((y + r) % 32) ((x + c) % 64) c
            (fun c' hc' hcontra =>
              colcell_ne x c c' (by omega) (by omega) (by omega) hcontra.2)]
    · have h2 : (x + c) % 64 ≠ (x + k) % 64 :=
        colcell_ne x c k (by omega) (by omega) hck
      rw [if_neg (fun hcontra => h2 hcontra.2)]
      exact ih (by omega) c (by omega)

theorem drawCols_flag_cases (s : Chip8) (x y r : Nat) :
    ∀ k, (drawCols s x y r k).registers 15 = 1 ∨
      (drawCols s x y r k).registers 15 = s.registers 15 := by
  intro k
  induction k with
  | zero => exact Or.inr rfl
  | succ k ih =>
    rw [drawCols, drawPixel_flag]
    by_cases h : 0 < (drawCols s x y r k).display ((y + r) % 32) ((x + k) % 64) ∧
        0 < spriteBit (drawCols s x y r k) r k
    · rw [if_pos h]
      exact Or.inl rfl
    · rw [if_neg h]
      exact ih

theorem drawCols_flag_none (s : Chip8) (x y r : Nat) :
    ∀ k, k ≤ 64 →
      (∀ c, c < k → ¬(0 < s.display ((y + r) % 32) ((x + c) % 64) ∧ 0 < spriteBit s r c)) →
      (drawCols s x y r k).registers 15 = s.registers 15 := by
  intro k
  induction k with
  | zero => intro _ _; rfl
  | succ k ih =>
    intro hk h
    rw [drawCols, drawPixel_flag]
    rw [drawCols_display_untouched s x y r ((y + r) % 32) ((x + k) % 64) k
          (fun c' hc' hcontra =>
            colcell_ne x k c' (by omega) (by omega) (by omega) hcontra.2)]
    rw [drawCols_spriteBit]
    rw [if_neg (h k (by omega))]
    exact ih (by omega) (fun c hc => h c (by omega))

theorem drawCols_flag_one (s : Chip8) (x y r : Nat) :
    ∀ k, k ≤ 64 → ∀ c, c < k →
      0 < s.display ((y + r) % 32) ((x + c) % 64) → 0 < spriteBit s r c →
      (drawCols s x y r k).registers 15 = 1 := by
  intro k
  induction k with
  | zero => intro _ c hc; omega
  | succ k ih =>
    intro hk c hc h1 h2
    rw [drawCols, drawPixel_flag]
    by_cases hck : c = k
    · subst hck
      rw [drawCols_display_untouched s x y r ((y + r) % 32) ((x + c) % 64) c
            (fun c' hc' hcontra =>
              colcell_ne x c c' (by omega) (by omega) (by omega) hcontra.2)]
      rw [drawCols_spriteBit]
      rw [if_pos ⟨h1, h2⟩]
    · have hone := ih (by omega) c (by omega) h1 h2
      by_cases hcond : 0 < (drawCols s x y r k).display ((y + r) % 32) ((x + k) % 64) ∧
          0 < spriteBit (drawCols s x y r k) r k
      · rw [if_pos hcond]
      · rw [if_neg hcond]
        exact hone

/-! ### The sprite-draw loop, row by row -/

theorem drawRows_memory (s : Chip8) (x y : Nat) :
    ∀ m, (drawRows s x y m).memory = s.memory := by
  intro m
  induction m with
  | zero => rfl
  | succ m ih => rw [drawRows, drawCols_memory, ih]

theorem drawRows_i_register (s : Chip8) (x y : Nat) :
    ∀ m, (drawRows s x y m).i_register = s.i_register := by
  intro m
  induction m with
  | zero => rfl
  | succ m ih => rw [drawRows, drawCols_i_register, ih]

theorem drawRows_spriteBit (s : Chip8) (x y m a b : Nat) :
    spriteBit (drawRows s x y m) a b = spriteBit s a b := by
  simp [spriteBit, drawRows_memory, drawRows_i_register]

theorem drawRows_registers_ne (s : Chip8) (x y j : Nat) (hj : j ≠ 15) :
    ∀ m, (drawRows s x y m).registers j = s.registers j := by
  intro m
  induction m with
  | zero => rfl
  | succ m ih => rw [drawRows, drawCols_registers_ne _ _ _ _ _ hj, ih]

theorem drawRows_display_untouched (s : Chip8) (x y dy dx : Nat) :
    ∀ m, (∀ r, r < m → ∀ c, c < 8 → ¬(dy = (y + r) % 32 ∧ dx = (x + c) % 64)) →
      (drawRows s x y m).display dy dx = s.display dy dx := by
  intro m
  induction m with
  | zero => intro _; rfl
  | succ m ih =>
    intro h
    rw [drawRows]
    rw [drawCols_display_untouched _ _ _ _ _ _ 8 (fun c hc => h m (by omega) c hc)]
    exact ih (fun r hr c hc => h r (by omega) c hc)

theorem drawRows_display_touched (s : Chip8) (x y : Nat) :
    ∀ m, m ≤ 32 → ∀ r, r < m → ∀ c, c < 8 →
      (drawRows s x y m).display ((y + r) % 32) ((x + c) % 64) =
        Nat.xor (s.display ((y + r) % 32) ((x + c) % 64)) (spriteBit s r c) := by
  intro m
  induction m with
  | zero => intro _ r hr; omega
  | succ m ih =>
    intro hm r hr c hc
    rw [drawRows]
    by_cases hrm : r = m
    · subst hrm
      rw [drawCols_display_touched _ _ _ _ 8 (by omega) c hc]
      rw [drawRows_spriteBit]
      rw [drawRows_display_untouched s x y ((y + r) % 32) ((x + c) % 64) r
            (fun r' hr' c' hc' hcontra =>
              rowcell_ne y r r' (by omega) (by omega) (by omega) hcontra.1)]
    · rw [drawCols_display_untouched _ _ _ _ _ _ 8
            (fun c' hc' hcontra =>
              rowcell_ne y r m (by omega) (by omega) hrm hcontra.1)]
      exact ih (by omega) r (by omega) c hc

theorem drawRows_flag_cases (s : Chip8) (x y : Nat) :
    ∀ m, (drawRows s x y m).registers 15 = 1 ∨
      (drawRows s x y m).registers 15 = s.registers 15 := by
  intro m
  induction m with
  | zero => exact Or.inr rfl
  | succ m ih =>
    rw [drawRows]
    rcases drawCols_flag_cases (drawRows s x y m) x y m 8 with h | h
    · exact Or.inl h
    · rw [h]
      exact ih

theorem drawRows_flag_none (s : Chip8) (x y : Nat) :
    ∀ m, m ≤ 32 →
      (∀ r, r < m → ∀ c, c < 8 →
        ¬(0 < s.display ((y + r) % 32) ((x + c) % 64) ∧ 0 < spriteBit s r c)) →
      (drawRows s x y m).registers 15 = s.registers 15 := by
  intro m
  induction m with
  | zero => intro _ _; rfl
  | succ m ih =>
    intro hm h
    rw [drawRows]
    rw [drawCols_flag_none (drawRows s x y m) x y m 8 (by omega) ?_]
    · exact ih (by omega) (fun r hr c hc => h r (by omega) c hc)
    · intro c hc hcontra
      rw [drawRows_display_untouched s x y ((y + m) % 32) ((x + c) % 64) m
            (fun r' hr' c' hc' hcontra' =>
              rowcell_ne y m r' (by omega) (by omega) (by omega) hcontra'.1),
          drawRows_spriteBit] at hcontra
      exact h m (by omega) c hc hcontra

theorem drawRows_flag_one (s : Chip8) (x y : Nat) :
    ∀ m, m ≤ 32 → ∀ r, r < m → ∀ c, c < 8 →
      0 < s.display ((y + r) % 32) ((x + c) % 64) → 0 < spriteBit s r c →
      (drawRows s x y m).registers 15 = 1 := by
  intro m
  induction m with
  | zero => intro _ r hr; omega
  | succ m ih =>
    intro hm r hr c hc h1 h2
    rw [drawRows]
    by_cases hrm : r = m
    · subst hrm
      refine drawCols_flag_one (drawRows s x y r) x y r 8 (by omega) c hc ?_ ?_
      · rw [drawRows_display_untouched s x y ((y + r) % 32) ((x + c) % 64) r
              (fun r' hr' c' hc' hcontra =>
                rowcell_ne y r r' (by omega) (by omega) (by omega) hcontra.1)]
        exact h1
      · rw [drawRows_spriteBit]
        exact h2
    · have hone := ih (by omega) r (by omega) c hc h1 h2
      rcases drawCols_flag_cases (drawRows s x y m) x y m 8 with h | h
      · exact h
      · rw [h]
        exact hone

/-! ### C7 — per-pixel XOR with independent wrap-around -/

/-- C7: a successful draw `0xDXYN` XOR-composes the sprite bit of row `r`,
column `c` onto the framebuffer at
`((registers[y] mod 32 + r) mod 32, (registers[x] mod 64 + c) mod 64)`,
wrapping each axis independently per pixel. -/
theorem C7_draw_wrap (s : Chip8) (op : Nat) (s' : Chip8)
    (hok : handle_Dxxx s op = .ok s') :
    ∀ r c, r < op % 16 → c < 8 →
      s'.display ((s.registers (op / 16 % 16) % 32 + r) % 32)
                 ((s.registers (op / 256 % 16) % 64 + c) % 64) =
        Nat.xor (s.display ((s.registers (op / 16 % 16) % 32 + r) % 32)
                           ((s.registers (op / 256 % 16) % 64 + c) % 64))
                (s.memory (s.i_register + r) / 2 ^ (7 - c) % 2) := by
  intro r c hr hc
  simp only [handle_Dxxx] at hok
  by_cases hcond : s.i_register + op % 16 ≤ 4096
  · rw [if_pos hcond] at hok
    injection hok with hok
    subst hok
    exact drawRows_display_touched _ _ _ (op % 16) (by omega) r hr c hc
  · rw [if_neg hcond] at hok
    exact absurd hok (by simp)

/-- C7 witnessed at `sD7`: a sprite drawn at `x = 63` places its second
column (`c = 1`) at display column 0 — the draw wraps. -/
theorem C7_draw_wrap_witness :
    (drawRows { sD7 with registers := upd sD7.registers 15 0 } 63 0 1).display 0 0 =
      Nat.xor (sD7.display 0 0) (sD7.memory (sD7.i_register + 0) / 2 ^ (7 - 1) % 2) :=
  C7_draw_wrap sD7 0xD011
    (drawRows { sD7 with registers := upd sD7.registers 15 0 } 63 0 1) rfl 0 1
    (by decide) (by decide)

/-! ### C5 — draw collision flag -/

/-- C5: a successful draw first unconditionally clears `registers[0xF]` and
then sets it to 1 exactly when some framebuffer pixel that was set before the
draw is unset by the XOR (the flag afterwards is 0 or 1, and it is 1 iff such
a pixel exists); in particular on the blank machine `sD5` drawing the 8×1
sprite `0xFF` yields flag 0, and immediately redrawing it at the same
coordinates restores the blank framebuffer and yields flag 1.
The hypothesis `h01` is the display invariant (every pixel is one bit,
as every reachable display is). -/
theorem C5_draw_collision (s : Chip8) (op : Nat) (s' : Chip8)
    (hok : handle_Dxxx s op = .ok s')
    (h01 : ∀ dy dx : Nat, s.display dy dx ≤ 1) :
    (s'.registers 15 = 0 ∨ s'.registers 15 = 1) ∧
    (s'.registers 15 = 1 ↔
      ∃ dy dx : Nat, dy < 32 ∧ dx < 64 ∧ 0 < s.display dy dx ∧ s'.display dy dx = 0) ∧
    flagAfter (handle_Dxxx sD5 0xD011) = some 0 ∧
    flagAfter (Except.bind (handle_Dxxx sD5 0xD011) (fun t => handle_Dxxx t 0xD011)) = some 1 ∧
    (∀ dy, dy < 32 → ∀ dx, dx < 64 →
      dispAfter (Except.bind (handle_Dxxx sD5 0xD011) (fun t => handle_Dxxx t 0xD011)) dy dx
        = some 0) := by
  simp only [handle_Dxxx] at hok
  by_cases hcond : s.i_register + op % 16 ≤ 4096
  case neg =>
    rw [if_neg hcond] at hok
    exact absurd hok (by simp)
  rw [if_pos hcond] at hok
  injection hok with hok
  subst hok
  set X := s.registers (op / 256 % 16) % 64 with hX
  set Y := s.registers (op / 16 % 16) % 32 with hY
  set n := op % 16 with hn
  set s0 : Chip8 := { s with registers := upd s.registers 15 0 } with hs0
  have hflag0 : s0.registers 15 = 0 := by
    rw [hs0]
    show upd s.registers 15 0 15 = 0
    exact upd_self _ _ _
  have hn32 : n ≤ 32 := by rw [hn]; omega
  refine ⟨?_, ?_, by decide, by decide, by decide⟩
  · rcases drawRows_flag_cases s0 X Y n with h | h
    · exact Or.inr h
    · exact Or.inl (h.trans hflag0)
  · constructor
    · intro hone
      by_cases hcoll : ∃ r, r < n ∧ ∃ c, c < 8 ∧
          0 < s.display ((Y + r) % 32) ((X + c) % 64) ∧ 0 < spriteBit s r c
      · obtain ⟨r, hr, c, hc, hd, hb⟩ := hcoll
        refine ⟨(Y + r) % 32, (X + c) % 64, Nat.mod_lt _ (by norm_num),
          Nat.mod_lt _ (by norm_num), hd, ?_⟩
        rw [drawRows_display_touched s0 X Y n hn32 r hr c hc]
        have hd1 : s.display ((Y + r) % 32) ((X + c) % 64) = 1 :=
          le_antisymm (h01 _ _) hd
        have hb1 : spriteBit s r c = 1 := by
          have h2 : spriteBit s r c < 2 := by
            unfold spriteBit
            omega
          omega
        show Nat.xor (s.display ((Y + r) % 32) ((X + c) % 64)) (spriteBit s r c) = 0
        rw [hd1, hb1]
        decide
      · exfalso
        have hnone := drawRows_flag_none s0 X Y n hn32
          (fun r hr c hc hcontra => hcoll ⟨r, hr, c, hc, hcontra.1, hcontra.2⟩)
        rw [hnone, hflag0] at hone
        exact absurd hone (by decide)
    · rintro ⟨dy, dx, hdy, hdx, hset, hzero⟩
      by_cases htouch : ∃ r, r < n ∧ ∃ c, c < 8 ∧ dy = (Y + r) % 32 ∧ dx = (X + c) % 64
      · obtain ⟨r, hr, c, hc, hdyeq, hdxeq⟩ := htouch
        subst hdyeq
        subst hdxeq
        rw [drawRows_display_touched s0 X Y n hn32 r hr c hc] at hzero
        have hd1 : s.display ((Y + r) % 32) ((X + c) % 64) = 1 :=
          le_antisymm (h01 _ _) hset
        have hzero' : Nat.xor (s.display ((Y + r) % 32) ((X + c) % 64)) (spriteBit s r c) = 0 :=
          hzero
        rw [hd1] at hzero'
        have hb2 : spriteBit s r c < 2 := by
          unfold spriteBit
          omega
        have hb1 : 0 < spriteBit s r c := by
          rcases (by omega : spriteBit s r c = 0 ∨ spriteBit s r c = 1) with h | h
          · rw [h] at hzero'
            exact absurd hzero' (by decide)
          · omega
        exact drawRows_flag_one s0 X Y n hn32 r hr c hc hset hb1
      · exfalso
        have huntouched := drawRows_display_untouched s0 X Y dy dx n
          (fun r hr c hc hcontra => htouch ⟨r, hr, c, hc, hcontra.1, hcontra.2⟩)
        rw [huntouched] at hzero
        have hdisp : s.display dy dx = 0 := hzero
        omega

/-- C5 witnessed: the flag dichotomy at the concrete first draw on `sD5`. -/
theorem C5_draw_collision_witness :
    (drawRows { sD5 with registers := upd sD5.registers 15 0 } 0 0 1).registers 15 = 0 ∨
    (drawRows { sD5 with registers := upd sD5.registers 15 0 } 0 0 1).registers 15 = 1 :=
  (C5_draw_collision sD5 0xD011
    (drawRows { sD5 with registers := upd sD5.registers 15 0 } 0 0 1) rfl
    (fun _ _ => Nat.zero_le 1)).1
